import Mathlib

/-!
Shallow embedding of `packages/core/src/DataTileIndexer.js` (the Mosaic
data-tile indexer), together with the numeric semantics of its binning
functions, and theorems settling the specification claims about it.

The query/select/clause objects are the interface of the external
`@mosaic/sql` query-builder library; they are modelled here exactly as the
source consumes them (the fields and methods that `DataTileIndexer.js`
reads).  JavaScript runtime values that matter to the source's control flow
(`undefined`, `NaN`, `===` on them, truthiness) are modelled explicitly.
-/

set_option linter.unusedVariables false

/-! ## Query model (interface of the external query-builder, as the source uses it) -/

/-- One entry of a query's select list, as consumed by `getIndexColumns`.
The source destructures `{ as, expr: { aggregate } }`: the output alias and
the aggregate-function name of the select expression (`undefined`, i.e.
`none`, for plain column references).  `asName` is the source's `as`. -/
structure SelectEntry where
  asName : String
  aggregate : Option String
deriving DecidableEq, Repr

/-- The query AST.  Select queries expose `select`/`from`/`groupby`/`where`
clauses and their `subqueries`; set operations (e.g. a UNION) expose only
their operand `subqueries` (always at least one) and lack the `select` and
`groupby` methods. -/
inductive Query where
  | select (sel : List SelectEntry) (fromT : List String) (gb : List String)
      (whereC : List String) (subqueries : List Query)
  | setop (q0 : Query) (qs : List Query)

/-- `q.select()`: the select list (set operations have no such method;
never called on them by the source). -/
def Query.selects : Query → List SelectEntry
  | .select s _ _ _ _ => s
  | .setop _ _ => []

/-- `q.groupby().map(c => c.column)`: the grouping column names. -/
def Query.groupbys : Query → List String
  | .select _ _ g _ _ => g
  | .setop _ _ => []

/-- Truthiness of `q.groupby`: the `groupby` *method* exists on select
queries (a `Query` instance) and is absent (`undefined`) on set operations. -/
def Query.hasGroupbyM : Query → Bool
  | .select _ _ _ _ _ => true
  | .setop _ _ => false

/-- `query.subqueries`. -/
def Query.subqueriesOf : Query → List Query
  | .select _ _ _ _ subs => subs
  | .setop q0 qs => q0 :: qs

/-! ## getBaseTable -/

/-- The possible results of `getBaseTable`: JavaScript `undefined` (no
table found), `NaN` (the incompatibility sentinel), or a table name. -/
inductive BaseTable where
  | undef : BaseTable
  | nan : BaseTable
  | tbl : String → BaseTable
deriving DecidableEq, Repr

/-- JavaScript `===` on `getBaseTable` results.  `NaN === NaN` is `false`;
strings compare by value. -/
def btEq : BaseTable → BaseTable → Bool
  | .undef, .undef => true
  | .tbl a, .tbl b => a = b
  | _, _ => false

/-- JavaScript truthiness of a `getBaseTable` result (used by the
`!from` test in `getIndexColumns`): `undefined` and `NaN` are falsy, and
so is the empty string. -/
def jsTruthy : BaseTable → Bool
  | .undef => false
  | .nan => false
  | .tbl t => t ≠ ""

/-- The table name carried by a truthy `getBaseTable` result (only read
behind the `!from` guard, where the result is a non-empty table name). -/
def BaseTable.tableName : BaseTable → String
  | .tbl t => t
  | _ => ""

mutual

/-- `getBaseTable(query)`: resolve the base-table identity of a query.
A select query with an empty FROM list yields `undefined`; with no
subqueries it yields its first FROM table; otherwise (and for set
operations) the subquery branches are folded: branches yielding
`undefined` are skipped, and a branch that is not `===` to the first
branch's result yields the `NaN` sentinel. -/
def getBaseTable : Query → BaseTable
  | .select _ fromT _ _ subs =>
    match fromT, subs with
    | [], _ => .undef
    | t :: _, [] => .tbl t
    | _ :: _, s :: rest => btLoop (getBaseTable s) rest
  | .setop s rest => btLoop (getBaseTable s) rest
termination_by structural q => q

/-- The `for (let i = 1; ...)` loop of `getBaseTable`: compare each later
branch against the first branch's result `base`. -/
def btLoop : BaseTable → List Query → BaseTable
  | base, [] => base
  | base, s :: rest =>
    match getBaseTable s with
    | .undef => btLoop base rest
    | f => if btEq f base then btLoop base rest else .nan
termination_by structural _ l => l

end

/-! ## getIndexColumns (the query-shape analyzer) -/

/-- `SUM("as")::DOUBLE` (COUNT and SUM re-aggregate via SUM). -/
def sumSQLOf (n : String) : String := "SUM(\"" ++ n ++ "\")::DOUBLE"

/-- `(SUM("as" * _count_) / SUM(_count_))::DOUBLE` (AVG re-aggregation). -/
def avgSQLOf (n : String) : String :=
  "(SUM(\"" ++ n ++ "\" * _count_) / SUM(_count_))::DOUBLE"

/-- `MAX("as")`. -/
def maxSQLOf (n : String) : String := "MAX(\"" ++ n ++ "\")"

/-- `MIN("as")`. -/
def minSQLOf (n : String) : String := "MIN(\"" ++ n ++ "\")"

/-- `aggregate?.toUpperCase()` (aggregate names are ASCII): mapped over the
characters, so that it is kernel-reducible. -/
def jsToUpper (s : String) : String := String.mk (s.data.map Char.toUpper)

/-- The cases of the `switch (aggregate?.toUpperCase())` dispatch of
`getIndexColumns`. -/
inductive AggCase where
  | count : AggCase
  | sum : AggCase
  | avg : AggCase
  | max : AggCase
  | min : AggCase
  | dflt : AggCase
deriving DecidableEq, Repr

/-- The `switch (aggregate?.toUpperCase())` dispatch itself: aggregate
kinds are recognized case-insensitively, and anything else (including a
missing aggregate) falls to the `default:` case. -/
def switchCase (e : SelectEntry) : AggCase :=
  match e.aggregate.map jsToUpper with
  | some "COUNT" => .count
  | some "SUM" => .sum
  | some "AVG" => .avg
  | some "MAX" => .max
  | some "MIN" => .min
  | _ => .dflt

/-- The loop of `getIndexColumns` over the select entries: builds the
re-aggregation list `aggr`, the dimension list `dims`, and whether the
`_count_` column is needed (an AVG was seen).  `none` models the
`return null` of the default case when the alias is not grouped. -/
def aggLoop (g : List String) : List SelectEntry → Option (List (String × String) × List String × Bool)
  | [] => some ([], [], false)
  | e :: rest =>
    match switchCase e with
    | .count => (aggLoop g rest).map fun (a, d, c) => ((e.asName, sumSQLOf e.asName) :: a, d, c)
    | .sum => (aggLoop g rest).map fun (a, d, c) => ((e.asName, sumSQLOf e.asName) :: a, d, c)
    | .avg => (aggLoop g rest).map fun (a, d, c) => ((e.asName, avgSQLOf e.asName) :: a, d, true)
    | .max => (aggLoop g rest).map fun (a, d, c) => ((e.asName, maxSQLOf e.asName) :: a, d, c)
    | .min => (aggLoop g rest).map fun (a, d, c) => ((e.asName, minSQLOf e.asName) :: a, d, c)
    | .dflt => if g.contains e.asName then (aggLoop g rest).map fun (a, d, c) => (a, e.asName :: d, c) else none

/-- Whether a select entry falls into the `default:` case of the switch
(no aggregate, or an aggregate name that is not COUNT/SUM/AVG/MAX/MIN). -/
def isDefaultCase (e : SelectEntry) : Bool := switchCase e = .dflt

/-- Whether a select entry is an AVG aggregate (case-insensitively). -/
def isAvgEntry (e : SelectEntry) : Bool := switchCase e = .avg

/-- The successful result record of `getIndexColumns`:
`{ aggr, dims, count, from }`. -/
structure IndexCols where
  aggr : List (String × String)
  dims : List String
  count : List (String × String)
  fromT : String
deriving DecidableEq, Repr

/-- The three possible results of `getIndexColumns`: the `{ from: NaN }`
early-exit record, `null`, or a full column record. -/
inductive IndexResult where
  | fromNaN : IndexResult
  | nullResult : IndexResult
  | cols : IndexCols → IndexResult
deriving DecidableEq, Repr

/-- A Mosaic client, as the source consumes it: a `query` method (called
with the selection's filter predicate, or with no argument — `none`) and
the `filterIndexable` flag. -/
structure Client where
  query : Option String → Query
  filterIndexable : Bool

/-- The early-exit guard of `getIndexColumns`:
`!(!from || !q.groupby || !client.filterIndexable)`. -/
def analyzeGuard (client : Client) : Bool :=
  jsTruthy (getBaseTable (client.query none))
    && (client.query none).hasGroupbyM && client.filterIndexable

/-- `getIndexColumns(client)`: analyze a client's query shape.  Returns
`{ from: NaN }` when the guard fails, `null` when a selected column is
neither a recognized aggregate nor a grouping dimension, and otherwise the
`{ aggr, dims, count, from }` record (with the `_count_` column present
iff an AVG aggregate was seen). -/
def getIndexColumns (client : Client) : IndexResult :=
  if ¬ analyzeGuard client then .fromNaN
  else
    let q := client.query none
    match aggLoop q.groupbys q.selects with
    | none => .nullResult
    | some (a, d, c) =>
      .cols ⟨a, d, if c then [("_count_", "COUNT(*)")] else [],
        (getBaseTable q).tableName⟩

/-! ## Spec-side description of the aggregate mapping (refinement target for C4) -/

/-- The aggregate re-mapping exactly as the spec describes it: one entry
per aggregate column, COUNT and SUM via SUM, AVG via the weighted
SUM/COUNT quotient, MIN/MAX unchanged; non-aggregate columns contribute
no entry.  This is written from the spec's words, to be compared against
`getIndexColumns`. -/
def specAggrMap : List SelectEntry → List (String × String)
  | [] => []
  | e :: rest =>
    match switchCase e with
    | .count => (e.asName, sumSQLOf e.asName) :: specAggrMap rest
    | .sum => (e.asName, sumSQLOf e.asName) :: specAggrMap rest
    | .avg => (e.asName, avgSQLOf e.asName) :: specAggrMap rest
    | .max => (e.asName, maxSQLOf e.asName) :: specAggrMap rest
    | .min => (e.asName, minSQLOf e.asName) :: specAggrMap rest
    | .dflt => specAggrMap rest

/-! ## Scales, clauses, and the symbolic view of binInterval

`binInterval` has two roles in the source: it decides scale-kind support
(the `switch` over `scale.type`), and it returns a closure producing the
SQL text `FLOOR(a * (sql(value) - lo))`.  The structural role is modelled
here with the generated expression kept symbolic (it is fully determined
by the scale and the input); the numeric semantics of the generated
expression is modelled separately below over the reals. -/

/-- A scale as found in an interval clause schema: `{ type, domain, range }`. -/
structure QScale where
  stype : String
  domain : ℚ × ℚ
  range : ℚ × ℚ
deriving DecidableEq, Repr

/-- The scale kinds for which the `switch` of `binInterval` defines a
`lift` (any other kind leaves `lift` undefined and yields `null`). -/
def scaleSupported (t : String) : Bool :=
  t = "linear" || t = "log" || t = "symlog" || t = "sqrt" || t = "utc" || t = "time"

/-- The input a bin closure is applied to: a column expression (at
index-build time) or a number (a filter-value endpoint). -/
inductive BinInput where
  | colS : String → BinInput
  | numQ : ℚ → BinInput
deriving DecidableEq, Repr

/-- A symbolic SQL select expression, as placed in active-view columns. -/
inductive SymExpr where
  | colRef : String → SymExpr
  | binOf : QScale → BinInput → SymExpr
  | countStar : SymExpr
  | lit : String → SymExpr
deriving DecidableEq, Repr

/-- Structural image of `binInterval`: `null` for unsupported scale kinds,
otherwise the closure producing the bin expression for an input.  The
expression's text is determined by the scale and the input, so it is kept
symbolic here. -/
def binIntervalSym (s : QScale) : Option (BinInput → SymExpr) :=
  if scaleSupported s.stype then some (fun v => SymExpr.binOf s v) else none

/-- One entry of a multi-scale interval predicate value: `{ value, expr }`. -/
structure PredEntry where
  exprS : String
  value : List ℚ
deriving DecidableEq, Repr

/-- The dynamic `value` carried by a predicate: a single range's endpoints,
or one entry per scale. -/
inductive PredVal where
  | nums : List ℚ → PredVal
  | entries : List PredEntry → PredVal
deriving DecidableEq, Repr

def PredVal.numsOf : PredVal → List ℚ
  | .nums qs => qs
  | .entries _ => []

def PredVal.entriesOf : PredVal → List PredEntry
  | .entries es => es
  | .nums _ => []

/-- A clause predicate, exposing `columns`, `expr` and `value`. -/
structure ClausePred where
  columns : List String
  exprS : String
  value : PredVal
deriving DecidableEq, Repr

/-- A clause schema: `{ type, scales? }`. -/
structure Schema where
  stype : String
  scales : Option (List QScale)
deriving DecidableEq, Repr

/-- An active selection clause: `{ source, schema, predicate }`.  `source`
is an opaque identity (`none` models a falsy/absent source). -/
structure Clause where
  source : Option Nat
  schema : Option Schema
  predicate : Option ClausePred
deriving DecidableEq, Repr

/-- A single predicate condition built by an active view:
`isBetween(col, bounds)`. -/
inductive Cond where
  | isBetween : String → List SymExpr → Cond
deriving DecidableEq, Repr

/-- The result of applying an active view's predicate function to a filter
value: an (empty or singleton) condition list, an `and(...)` of
conditions, or — for point views — the filter value passed through
verbatim (the identity function). -/
inductive FilterRes where
  | conds : List Cond → FilterRes
  | andConds : List Cond → FilterRes
  | raw : Option ClausePred → FilterRes
deriving DecidableEq, Repr

/-- A resolved active view: `{ source, columns, predicate }`. -/
structure ActiveView where
  source : Option Nat
  columns : List (String × SymExpr)
  predicate : Option ClausePred → FilterRes

/-- `List (Option α) → Option (List α)`: `none` iff some element is `none`
(this is what `bins.some(b => b == null)` guards before `bins` is used). -/
def allSome {α : Type} : List (Option α) → Option (List α)
  | [] => some []
  | none :: _ => none
  | some a :: rest => (allSome rest).map (a :: ·)

/-- `getActiveView(clause)`: resolve the active view.  Requires a schema
and a predicate exposing columns; interval schemas bin every scale
(failing closed if any scale kind is unsupported), point schemas take the
predicate's columns verbatim; any other schema type is unsupported. -/
def getActiveView (clause : Clause) : Option ActiveView :=
  match clause.schema, clause.predicate with
  | some schema, some pred =>
    if schema.stype = "interval" && schema.scales.isSome then
      let scales := schema.scales.getD []
      match allSome (scales.map binIntervalSym) with
      | none => none
      | some bs =>
        match bs with
        | [b] =>
          some { source := clause.source,
                 columns := [("active0", b (.colS pred.exprS))],
                 predicate := fun p =>
                   match p with
                   | none => .conds []
                   | some pr => .conds [.isBetween "active0"
                       ((pr.value.numsOf).map (fun q => b (.numQ q)))] }
        | _ =>
          some { source := clause.source,
                 columns := ((pred.value.entriesOf).zip bs).enum.map
                   (fun ie => ("active" ++ toString ie.1, ie.2.2 (.colS ie.2.1.exprS))),
                 predicate := fun p =>
                   match p with
                   | none => .conds []
                   | some pr => .andConds (((pr.value.entriesOf).zip bs).enum.map
                       (fun ie => .isBetween ("active" ++ toString ie.1)
                         (ie.2.1.value.map (fun q => ie.2.2 (.numQ q))))) }
    else if schema.stype = "point" then
      some { source := clause.source,
             columns := pred.columns.map (fun c => (c, SymExpr.colRef c)),
             predicate := fun p => .raw p }
    else none
  | _, _ => none

/-! ## Query-text rendering, hashing, subquery pushdown

`query.toString()` is the external query-builder's stringification; it is
modelled by a deterministic structural rendering. -/

def joinC : List String → String := fun l => l.foldl (fun a b => a ++ "," ++ b) ""

def renderSE (e : SelectEntry) : String := e.asName ++ "=" ++ e.aggregate.getD "col"

mutual

def renderQ : Query → String
  | .select s f g w subs =>
    "SELECT " ++ joinC (s.map renderSE) ++ " FROM " ++ joinC f ++ renderQL subs
      ++ " WHERE " ++ joinC w ++ " GROUP BY " ++ joinC g
  | .setop q qs => "SETOP(" ++ renderQ q ++ renderQL qs ++ ")"
termination_by structural q => q

def renderQL : List Query → String
  | [] => ""
  | q :: qs => "(" ++ renderQ q ++ ")" ++ renderQL qs
termination_by structural l => l

end

def renderQnum (q : ℚ) : String := toString q.num ++ "/" ++ toString q.den

def renderBinInput : BinInput → String
  | .colS n => n
  | .numQ q => renderQnum q

/-- Rendering of a symbolic select expression (for `binOf`, the generated
`FLOOR(a * (sql(value) - lo))` text, rendered structurally). -/
def renderSym : SymExpr → String
  | .colRef n => n
  | .binOf sc v => "FLOOR(BIN(" ++ sc.stype ++ "," ++ renderQnum sc.domain.1 ++ ","
      ++ renderQnum sc.domain.2 ++ "," ++ renderQnum sc.range.1 ++ ","
      ++ renderQnum sc.range.2 ++ ")*(" ++ renderBinInput v ++ "))"
  | .countStar => "COUNT(*)"
  | .lit s => s

/-- The referenced columns of a symbolic expression
(`expr(...).columns`); a bin of a numeric input references none. -/
def symColumns : SymExpr → List String
  | .colRef n => [n]
  | .binOf _ v => match v with | .colS n => [n] | .numQ _ => []
  | .countStar => []
  | .lit _ => []

/-- Rendering of the fully built index-construction query:
`client.query(pred).select({...activeView.columns, ...index.count})
.groupby(Object.keys(activeView.columns))`, stringified. -/
def renderBuilt (q : Query) (extraSel : List (String × String)) (extraGb : List String) : String :=
  renderQ q ++ ";S:" ++ joinC (extraSel.map (fun p => p.1 ++ ":" ++ p.2))
    ++ ";G:" ++ joinC extraGb

/-- Modelled from the spec: `util/hash.js` (`fnv_hash`) is not under
`src/`; per the spec it is an "unsigned 32-bit fast non-cryptographic
hash" of the generation-query text — modelled as 32-bit FNV-1a over the
characters. -/
def fnvHash (s : String) : Nat :=
  s.data.foldl (fun h c => ((h ^^^ c.toNat) * 16777619) % 4294967296) 2166136261

/-- `(hash >>> 0).toString(16)`: lowercase hexadecimal rendering. -/
def natHex (n : Nat) : String := String.mk (Nat.toDigits 16 n)

mutual

/-- `subqueryPushdown`: add the given columns to the select list of every
(sub)query that has a select clause and a non-empty FROM list, recursing
through all nested subqueries.  The source's visited-set (identity memo)
is the plain recursion over the subquery tree here. -/
def pushdown (colsP : List String) : Query → Query
  | .select s f g w subs =>
    .select (if f.isEmpty then s else s ++ colsP.map (fun n => ⟨n, none⟩)) f g w
      (pushdownL colsP subs)
  | .setop q qs => .setop (pushdown colsP q) (pushdownL colsP qs)
termination_by structural q => q

def pushdownL (colsP : List String) : List Query → List Query
  | [] => []
  | q :: qs => pushdown colsP q :: pushdownL colsP qs
termination_by structural l => l

end

/-- `const [subq] = query.subqueries; if (subq) subqueryPushdown(subq, cols)`:
pushdown applied to the first subquery only (if any). -/
def pushFirst (colsP : List String) : Query → Query
  | .select s f g w (q0 :: qs) => .select s f g w (pushdown colsP q0 :: qs)
  | .setop q0 qs => .setop (pushdown colsP q0) qs
  | q => q

/-! ## The indexer state machine -/

/-- The selection collaborator, at its interface boundary: the current
`active` clause, the `cross` flag of the source-excluding clone, and
`clone().update({source}).predicate(client)` — the filter predicate for a
client once the given source's own clause is removed (keyed by source
identity and client identity). -/
structure Selection where
  active : Clause
  cross : Bool
  predExcl : Nat → Nat → Option String

/-- One recorded index entry: `{ table, ...index }` (the spread of the
analyzed `{ aggr, dims, count, from }` record). -/
structure IndexEntry where
  table : String
  aggr : List (String × String)
  dims : List String
  count : List (String × String)
  fromT : String
deriving DecidableEq, Repr

/-- The mutable state of a `DataTileIndexer`: `enabled`, the last-seen
client set (`none` models `null`; identity paired with contents), the
index map (`none` models `null`), and the last resolved active view. -/
structure IndexerState where
  enabled : Bool
  clients : Option (Nat × List Nat)
  indices : Option (List (Nat × IndexEntry))
  activeView : Option ActiveView

/-- `reset()` (also the constructor's initial state). -/
def resetState : IndexerState :=
  { enabled := false, clients := none, indices := none, activeView := none }

/-- Externally observable executor/console activity of `index()`. -/
inductive Effect where
  | warn : Effect
  | exec : String → Effect
  | errorLogged : Effect
deriving DecidableEq, Repr

/-- `createIndex(mc, table, query)`: submit the idempotent table creation;
an executor error is logged (`console.error`) and swallowed. -/
def createIndex (execOk : String → Bool) (table sqlS : String) : List Effect :=
  let stmt := "CREATE TEMP TABLE IF NOT EXISTS " ++ table ++ " AS " ++ sqlS
  if execOk stmt then [.exec stmt] else [.exec stmt, .errorLogged]

/-- The `{ from }` value of an analyzed client under JavaScript `===`
(`undefined` for `null` via optional chaining, `NaN` for the early-exit
record, the table-name string otherwise). -/
inductive FromVal where
  | undef : FromVal
  | nan : FromVal
  | str : String → FromVal
deriving DecidableEq, Repr

/-- JavaScript `===` on from-values (`NaN === NaN` is false). -/
def fvEq : FromVal → FromVal → Bool
  | .undef, .undef => true
  | .str a, .str b => a = b
  | _, _ => false

/-- JavaScript truthiness of an analyzer result (the `c &&` test:
only `null` is falsy). -/
def irTruthy : IndexResult → Bool
  | .nullResult => false
  | _ => true

/-- `c.from` (resp. `cols[0]?.from`): the from-value of an analyzer result. -/
def fromOf : IndexResult → FromVal
  | .fromNaN => .nan
  | .nullResult => .undef
  | .cols c => .str c.fromT

/-- The analyzed columns of a client inside the build loop (behind
`enabled`, the result is always a full record; the defaults model the
spread of the degenerate records, which is unreachable there). -/
def IndexResult.colsD : IndexResult → IndexCols
  | .cols c => c
  | _ => ⟨[], [], [], ""⟩

/-- The per-client body of the index-construction loop of `index()`:
skip cross-filtered clients, build the generation query, push active-view
columns into the first subquery, derive the table name from the hash of
the query text, record the entry, and submit the table creation. -/
def buildLoop (env : Nat → Client) (skipC : Nat → Clause → Bool) (execOk : String → Bool)
    (sel : Selection) (s : Nat) (active : Clause) (av : ActiveView) :
    List Nat → List (Nat × IndexEntry) × List Effect
  | [] => ([], [])
  | c :: rest =>
    if sel.cross && skipC c active then
      buildLoop env skipC execOk sel s active av rest
    else
      let ic := getIndexColumns (env c)
      let cnt := (ic.colsD).count
      let q0 := (env c).query (sel.predExcl s c)
      let avCols := av.columns
      let pdCols := avCols.map (fun p => (symColumns p.2).headD "undefined")
      let q1 := pushFirst pdCols q0
      let sqlS := renderBuilt q1 (avCols.map (fun p => (p.1, renderSym p.2)) ++ cnt)
        (avCols.map Prod.fst)
      let table := "tile_index_" ++ natHex (fnvHash sqlS)
      let entry : IndexEntry :=
        { table := table, aggr := (ic.colsD).aggr, dims := (ic.colsD).dims,
          count := cnt, fromT := (ic.colsD).fromT }
      let r := buildLoop env skipC execOk sel s active av rest
      ((c, entry) :: r.1, createIndex execOk table sqlS ++ r.2)

/-- `index(clients, active)`: the full state machine.  Returns the new
state, the boolean result, and the executor/console effects. -/
def index (env : Nat → Client) (skipC : Nat → Clause → Bool) (execOk : String → Bool)
    (sel : Selection) (st : IndexerState) (csId : Nat) (cs : List Nat)
    (activeArg : Option Clause) : IndexerState × Bool × List Effect :=
  let st1 :=
    if st.clients.map Prod.fst ≠ some csId then
      let cols := cs.map (fun c => getIndexColumns (env c))
      let fromv := (cols.head?).elim FromVal.undef fromOf
      { enabled := cols.all (fun c => irTruthy c && fvEq (fromOf c) fromv),
        clients := some (csId, cs), indices := none, activeView := none }
    else st
  if st1.enabled = false then (st1, false, [])
  else
    let active := activeArg.getD sel.active
    match active.source with
    | none => (st1, false, [])
    | some s =>
      if st1.activeView.elim false (fun av => av.source = some s) then (st1, true, [])
      else
        match getActiveView active with
        | none => ({ st1 with activeView := none }, false, [])
        | some av =>
          let r := buildLoop env skipC execOk sel s active av cs
          ({ st1 with activeView := some av, indices := some r.1 }, true,
            Effect.warn :: r.2)

/-! ## update / updateClient -/

/-- The JavaScript faults the update path can raise. -/
inductive JSError where
  | typeError : JSError
deriving DecidableEq, Repr

/-- The follow-up query issued to `mc.updateClient`:
`Query.select(dims, aggr).from(table).groupby(dims).where(filter)`. -/
structure UpdateQuery where
  dims : List String
  aggr : List (String × String)
  table : String
  filter : FilterRes
deriving DecidableEq, Repr

/-- `updateClient(client, filter)`: look the client up in the index map
(dereferencing `this.indices` unguarded — a `TypeError` when it is
`null`), return silently when there is no entry, derive the filter from
`this.activeView` when none is supplied (dereferencing `activeView`
unguarded), and otherwise issue the re-aggregation query. -/
def updateClient (st : IndexerState) (sel : Selection) (c : Nat)
    (filter : Option FilterRes) : Except JSError (Option UpdateQuery) :=
  match st.indices with
  | none => .error .typeError
  | some m =>
    match m.lookup c with
    | none => .ok none
    | some e =>
      match filter with
      | some f => .ok (some ⟨e.dims, e.aggr, e.table, f⟩)
      | none =>
        match st.activeView with
        | none => .error .typeError
        | some av => .ok (some ⟨e.dims, e.aggr, e.table, av.predicate sel.active.predicate⟩)

/-- The `Promise.all` over per-client updates (a rejection propagates). -/
def updateAll (st : IndexerState) (sel : Selection) (filter : FilterRes) :
    List Nat → Except JSError (List (Option UpdateQuery))
  | [] => .ok []
  | c :: rest =>
    match updateClient st sel c (some filter) with
    | .error e => .error e
    | .ok r => (updateAll st sel filter rest).map (r :: ·)

/-- `update()`: derive the filter from the active view's predicate
(dereferencing `this.activeView` unguarded — a `TypeError` when it is
`null`), then refresh every client of the stored client set
(`Array.from(this.clients)` faults when it is still `null`). -/
def update (st : IndexerState) (sel : Selection) :
    Except JSError (List (Option UpdateQuery)) :=
  match st.activeView with
  | none => .error .typeError
  | some av =>
    let filter := av.predicate sel.active.predicate
    match st.clients with
    | none => .error .typeError
    | some cl => updateAll st sel filter cl.2

/-! ## Numeric semantics of binInterval / binFunction

JavaScript numbers are modelled by the reals extended with the IEEE
non-finite values that the source can actually produce here: `Infinity`,
`-Infinity` and `NaN` (from the unguarded division in `binFunction`). -/

/-- A JavaScript number: a (finite) real, `Infinity`, `-Infinity`, or `NaN`. -/
inductive JSNum where
  | fin : ℝ → JSNum
  | posInf : JSNum
  | negInf : JSNum
  | nan : JSNum

/-- Whether a JavaScript number is finite. -/
def JSNum.isFinite : JSNum → Bool
  | .fin _ => true
  | _ => false

/-- JavaScript division of finite numbers: `x / 0` is `Infinity`,
`-Infinity` or `NaN` according to the sign of `x`. -/
noncomputable def jsDiv (x y : ℝ) : JSNum :=
  if y ≠ 0 then .fin (x / y)
  else if 0 < x then .posInf
  else if x < 0 then .negInf
  else .nan

/-- JavaScript multiplication of a number by a finite number. -/
noncomputable def jsMul (a : JSNum) (r : ℝ) : JSNum :=
  match a with
  | .fin x => .fin (x * r)
  | .posInf => if 0 < r then .posInf else if r < 0 then .negInf else .nan
  | .negInf => if 0 < r then .negInf else if r < 0 then .posInf else .nan
  | .nan => .nan

/-- JavaScript `FLOOR` (the SQL floor of the computed double). -/
noncomputable def jsFloor : JSNum → JSNum
  | .fin x => .fin ((⌊x⌋ : ℤ) : ℝ)
  | a => a

/-- The forward transform (`lift`) chosen by the `switch` of
`binInterval`: identity for linear, natural log, signed `log1p` of the
absolute value for symlog, square root, and epoch-milliseconds (numeric
identity) for temporal scales; `none` for every other scale kind. -/
noncomputable def scaleLift (t : String) : Option (ℝ → ℝ) :=
  if t = "linear" then some (fun x => x)
  else if t = "log" then some Real.log
  else if t = "symlog" then some (fun x => Real.sign x * Real.log (1 + |x|))
  else if t = "sqrt" then some Real.sqrt
  else if t = "utc" then some (fun x => x)
  else if t = "time" then some (fun x => x)
  else none

/-- A scale with numeric (real) domain and range, as consumed by the
numeric semantics of `binInterval`. -/
structure Scale where
  stype : String
  domain : ℝ × ℝ
  range : ℝ × ℝ

/-- The data of a bin function produced by `binFunction`: the scale
factor `a` (a JavaScript number — the unguarded division can make it
non-finite), the offset `lo`, and the forward transform `f` denoting the
SQL-side lifted expression.  The generated SQL text is
`FLOOR(a * (sql(value) - lo))` with `a` and `lo` spliced in verbatim. -/
structure BinFn where
  a : JSNum
  lo : ℝ
  f : ℝ → ℝ

/-- `binFunction(domain, range, lift, sql)`:
`lo = lift(min(d0,d1))`, `hi = lift(max(d0,d1))`,
`a = |lift(r1) - lift(r0)| / (hi - lo)`. -/
noncomputable def binFunction (domain range : ℝ × ℝ) (lift : ℝ → ℝ) : BinFn :=
  let lo := lift (min domain.1 domain.2)
  let hi := lift (max domain.1 domain.2)
  { a := jsDiv |lift range.2 - lift range.1| (hi - lo), lo := lo, f := lift }

/-- The value of the generated expression
`FLOOR(a * (sql(v) - lo))` at a numeric input `v` (the database
evaluates the lifted SQL of `v`, i.e. `f v`). -/
noncomputable def BinFn.eval (b : BinFn) (v : ℝ) : JSNum :=
  jsFloor (jsMul b.a (b.f v - b.lo))

/-- Numeric semantics of `binInterval(scale)`: `null` when the switch
leaves `lift` undefined, otherwise the bin function. -/
noncomputable def binInterval (s : Scale) : Option BinFn :=
  match scaleLift s.stype with
  | some lift => some (binFunction s.domain s.range lift)
  | none => none

/-- The set of inputs on which a scale kind's forward transform is used
(the log transform requires positive inputs; all other kinds are total). -/
def liftDomain (t : String) : Set ℝ :=
  if t = "log" then Set.Ioi 0 else Set.univ

/-! ## Concrete instances used by witnesses and counterexamples -/

/-- The grouping dimensions that a fully processable select list yields:
the aliases of its default-case entries, in order. -/
def specDims (entries : List SelectEntry) : List String :=
  (entries.filter (fun e => isDefaultCase e)).map (·.asName)

def qMedian : Query := .select [⟨"x", some "MEDIAN"⟩] ["t"] ["x"] [] []

def clientMedian : Client := ⟨fun _ => qMedian, true⟩

def clientAgg : Client :=
  ⟨fun _ => .select [⟨"k", none⟩, ⟨"n", some "Count"⟩, ⟨"s", some "sum"⟩,
    ⟨"a", some "aVg"⟩, ⟨"lo", some "MIN"⟩, ⟨"hi", some "Max"⟩] ["sales"] ["k"] [] [], true⟩

def avPoint : ActiveView := ⟨some 3, [("c", SymExpr.colRef "c")], fun p => .raw p⟩

def clauseSrc3 : Clause := ⟨some 3, none, none⟩

def scalePow : QScale := ⟨"pow", (0, 1), (0, 1)⟩

def clausePow : Clause :=
  ⟨some 3, some ⟨"interval", some [scalePow]⟩, some ⟨["date"], "date", .nums [20, 40]⟩⟩

/-- JavaScript observability of an `updateClient` call: whether it issued
a follow-up query (as opposed to being a no-op or throwing). -/
def issuesQuery : Except JSError (Option UpdateQuery) → Bool
  | .ok (some _) => true
  | _ => false

def clauseLin : Clause :=
  ⟨some 3, some ⟨"interval", some [⟨"linear", (0, 100), (0, 10)⟩]⟩,
    some ⟨["date"], "date", .nums [20, 40]⟩⟩

def selLin : Selection := ⟨clauseLin, false, fun _ _ => some "SELPRED"⟩

def runC1 : IndexerState × Bool × List Effect :=
  index (fun _ => clientAgg) (fun _ _ => false) (fun _ => false) selLin resetState
    7 [0] (some clauseLin)


/-! ## Theorems -/

/-! ### C2: base-table identity resolution -/

theorem btLoop_all_tbl (t : String) (qs : List Query)
    (h : ∀ q ∈ qs, getBaseTable q = .tbl t) : btLoop (.tbl t) qs = .tbl t := by
  induction qs with
  | nil => rfl
  | cons q rest ih =>
    have hq := h q (List.mem_cons_self q rest)
    simp only [btLoop, hq, btEq]
    simp only [decide_True, if_true]
    exact ih (fun q hq => h q (List.mem_cons_of_mem _ hq))

theorem btLoop_mismatch (t : String) (qs : List Query)
    (hall : ∀ q ∈ qs, ∃ u, getBaseTable q = .tbl u)
    (hex : ∃ q ∈ qs, getBaseTable q ≠ .tbl t) : btLoop (.tbl t) qs = .nan := by
  induction qs with
  | nil => obtain ⟨q, hq, _⟩ := hex; exact absurd hq (List.not_mem_nil q)
  | cons q rest ih =>
    obtain ⟨u, hu⟩ := hall q (List.mem_cons_self q rest)
    by_cases hut : u = t
    · subst hut
      simp only [btLoop, hu, btEq, decide_True, if_true]
      refine ih (fun q hq => hall q (List.mem_cons_of_mem _ hq)) ?_
      obtain ⟨q', hq', hne⟩ := hex
      rcases List.mem_cons.mp hq' with h | h
      · subst h; exact absurd hu hne
      · exact ⟨q', h, hne⟩
    · simp only [btLoop, hu, btEq]
      have : decide (u = t) = false := decide_eq_false hut
      simp [this]

/-- C2 (confirmed): base-table identity resolution: a select query with no
subqueries resolves to its first FROM table; a query composed of a single
subquery branch resolves to that branch's identity; for multiple sibling
subquery branches that each resolve to a table, the result is their common
base table when all agree and otherwise the `NaN` incompatibility
sentinel, which is distinct from the `undefined` "no table found" result. -/
theorem C2_base_table_resolution :
    (∀ sel t ts gb wh, getBaseTable (.select sel (t :: ts) gb wh []) = .tbl t) ∧
    (∀ q, getBaseTable (.setop q []) = getBaseTable q) ∧
    (∀ sel t ts gb wh s, getBaseTable (.select sel (t :: ts) gb wh [s]) = getBaseTable s) ∧
    (∀ q0 qs t, getBaseTable q0 = .tbl t →
      (∀ q ∈ qs, ∃ u, getBaseTable q = .tbl u) →
      ((∀ q ∈ qs, getBaseTable q = .tbl t) → getBaseTable (.setop q0 qs) = .tbl t) ∧
      ((∃ q ∈ qs, getBaseTable q ≠ .tbl t) → getBaseTable (.setop q0 qs) = .nan)) ∧
    BaseTable.nan ≠ BaseTable.undef := by
  refine ⟨fun sel t ts gb wh => by simp [getBaseTable],
    fun q => by simp [getBaseTable, btLoop],
    fun sel t ts gb wh s => by simp [getBaseTable, btLoop],
    fun q0 qs t h0 hall => ⟨fun hagree => ?_, fun hex => ?_⟩,
    by simp⟩
  · simp only [getBaseTable, h0]
    exact btLoop_all_tbl t qs hagree
  · simp only [getBaseTable, h0]
    exact btLoop_mismatch t qs hall hex

/-- Witness for C2: a union of two subqueries over table `a` resolves to
`a`; a union of subqueries over `a` and `b` resolves to the `NaN`
sentinel; `NaN` is distinct from `undefined`. -/
theorem C2_base_table_resolution_witness :
    getBaseTable (.setop (.select [] ["a"] [] [] []) [.select [] ["a"] [] [] []]) = .tbl "a" ∧
    getBaseTable (.setop (.select [] ["a"] [] [] []) [.select [] ["b"] [] [] []]) = .nan ∧
    BaseTable.nan ≠ BaseTable.undef := by
  obtain ⟨h1, h2, h3, h4, h5⟩ := C2_base_table_resolution
  refine ⟨?_, ?_, h5⟩
  · exact (h4 _ [.select [] ["a"] [] [] []] "a" (by decide)
      (by intro q hq; simp at hq; subst hq; exact ⟨"a", by decide⟩)).1
      (by intro q hq; simp at hq; subst hq; decide)
  · exact (h4 _ [.select [] ["b"] [] [] []] "a" (by decide)
      (by intro q hq; simp at hq; subst hq; exact ⟨"b", by decide⟩)).2
      ⟨.select [] ["b"] [] [] [], by simp, by decide⟩

/-! ### C7, C8, C4: the query-shape analyzer -/

theorem aggLoop_none_step (g : List String) (e : SelectEntry) (rest : List SelectEntry) :
    aggLoop g (e :: rest) = none ↔
      (switchCase e = .dflt ∧ e.asName ∉ g) ∨ aggLoop g rest = none := by
  cases hsc : switchCase e with
  | dflt =>
    by_cases hc : e.asName ∈ g
    · have hcc : g.contains e.asName = true := by simpa using hc
      simp [aggLoop, hsc, hcc, hc, Option.map_eq_none']
    · have hcc : g.contains e.asName = false := by simpa using hc
      simp [aggLoop, hsc, hcc, hc]
  | count => simp [aggLoop, hsc, Option.map_eq_none']
  | sum => simp [aggLoop, hsc, Option.map_eq_none']
  | avg => simp [aggLoop, hsc, Option.map_eq_none']
  | max => simp [aggLoop, hsc, Option.map_eq_none']
  | min => simp [aggLoop, hsc, Option.map_eq_none']

theorem aggLoop_none_iff (g : List String) (entries : List SelectEntry) :
    aggLoop g entries = none ↔
      ∃ e ∈ entries, switchCase e = .dflt ∧ e.asName ∉ g := by
  induction entries with
  | nil => simp [aggLoop]
  | cons e rest ih =>
    rw [aggLoop_none_step, ih]
    constructor
    · rintro (⟨hd, hg⟩ | ⟨e', he', hd, hg⟩)
      · exact ⟨e, List.mem_cons_self e rest, hd, hg⟩
      · exact ⟨e', List.mem_cons_of_mem _ he', hd, hg⟩
    · rintro ⟨e', he', hd, hg⟩
      rcases List.mem_cons.mp he' with rfl | he''
      · exact Or.inl ⟨hd, hg⟩
      · exact Or.inr ⟨e', he'', hd, hg⟩

theorem aggLoop_some (g : List String) (entries : List SelectEntry)
    (h : ∀ e ∈ entries, switchCase e = .dflt → e.asName ∈ g) :
    aggLoop g entries =
      some (specAggrMap entries, specDims entries, entries.any isAvgEntry) := by
  induction entries with
  | nil => simp [aggLoop, specAggrMap, specDims]
  | cons e rest ih =>
    have ih' := ih (fun e' he' => h e' (List.mem_cons_of_mem _ he'))
    cases hsc : switchCase e with
    | dflt =>
      have hm := h e (List.mem_cons_self e rest) hsc
      have hcc : g.contains e.asName = true := by simpa using hm
      simp [aggLoop, hsc, hcc, hm, ih', specAggrMap, specDims, isDefaultCase, isAvgEntry,
        List.filter_cons, List.any_cons]
    | count =>
      simp [aggLoop, hsc, ih', specAggrMap, specDims, isDefaultCase, isAvgEntry,
        List.filter_cons, List.any_cons]
    | sum =>
      simp [aggLoop, hsc, ih', specAggrMap, specDims, isDefaultCase, isAvgEntry,
        List.filter_cons, List.any_cons]
    | avg =>
      simp [aggLoop, hsc, ih', specAggrMap, specDims, isDefaultCase, isAvgEntry,
        List.filter_cons, List.any_cons]
    | max =>
      simp [aggLoop, hsc, ih', specAggrMap, specDims, isDefaultCase, isAvgEntry,
        List.filter_cons, List.any_cons]
    | min =>
      simp [aggLoop, hsc, ih', specAggrMap, specDims, isDefaultCase, isAvgEntry,
        List.filter_cons, List.any_cons]

theorem aggLoop_dims_mem (g : List String) (entries : List SelectEntry)
    (a : List (String × String)) (d : List String) (c : Bool)
    (hsome : aggLoop g entries = some (a, d, c)) (e : SelectEntry)
    (hmem : e ∈ entries) (hd : switchCase e = .dflt) : e.asName ∈ d := by
  induction entries generalizing a d c with
  | nil => exact absurd hmem (List.not_mem_nil e)
  | cons e' rest ih =>
    cases hsc : switchCase e' with
    | dflt =>
      rw [aggLoop, hsc] at hsome
      cases hc : g.contains e'.asName with
      | false => rw [hc] at hsome; simp at hsome
      | true =>
        rw [hc] at hsome
        simp only [if_true, Option.map_eq_some'] at hsome
        obtain ⟨⟨a', d', c'⟩, hrest, heq⟩ := hsome
        cases heq
        rcases List.mem_cons.mp hmem with rfl | hmem'
        · exact List.mem_cons_self _ _
        · exact List.mem_cons_of_mem _ (ih _ _ _ hrest hmem')
    | count =>
      rw [aggLoop, hsc] at hsome
      simp only [Option.map_eq_some'] at hsome
      obtain ⟨⟨a', d', c'⟩, hrest, heq⟩ := hsome
      cases heq
      rcases List.mem_cons.mp hmem with rfl | hmem'
      · rw [hsc] at hd; exact absurd hd (by simp)
      · exact ih _ _ _ hrest hmem'
    | sum =>
      rw [aggLoop, hsc] at hsome
      simp only [Option.map_eq_some'] at hsome
      obtain ⟨⟨a', d', c'⟩, hrest, heq⟩ := hsome
      cases heq
      rcases List.mem_cons.mp hmem with rfl | hmem'
      · rw [hsc] at hd; exact absurd hd (by simp)
      · exact ih _ _ _ hrest hmem'
    | avg =>
      rw [aggLoop, hsc] at hsome
      simp only [Option.map_eq_some'] at hsome
      obtain ⟨⟨a', d', c'⟩, hrest, heq⟩ := hsome
      cases heq
      rcases List.mem_cons.mp hmem with rfl | hmem'
      · rw [hsc] at hd; exact absurd hd (by simp)
      · exact ih _ _ _ hrest hmem'
    | max =>
      rw [aggLoop, hsc] at hsome
      simp only [Option.map_eq_some'] at hsome
      obtain ⟨⟨a', d', c'⟩, hrest, heq⟩ := hsome
      cases heq
      rcases List.mem_cons.mp hmem with rfl | hmem'
      · rw [hsc] at hd; exact absurd hd (by simp)
      · exact ih _ _ _ hrest hmem'
    | min =>
      rw [aggLoop, hsc] at hsome
      simp only [Option.map_eq_some'] at hsome
      obtain ⟨⟨a', d', c'⟩, hrest, heq⟩ := hsome
      cases heq
      rcases List.mem_cons.mp hmem with rfl | hmem'
      · rw [hsc] at hd; exact absurd hd (by simp)
      · exact ih _ _ _ hrest hmem'

theorem isDefaultCase_iff (e : SelectEntry) :
    isDefaultCase e = true ↔ switchCase e = .dflt := by
  simp [isDefaultCase]

/-- C7 (corrected): when the analysis fails it does so in two distinct
ways: `null` is returned exactly when the early-exit guard passes (truthy
base table, groupby method present, filter-indexable client) and some
selected column is neither a recognized aggregate nor aliased in the
grouping set; the `{ from: NaN }` early-exit record — not `null` — is
returned exactly when the guard fails (no identifiable/truthy base table,
a query without the groupby method, or a non-filter-indexable client). -/
theorem C7_analyzer_failure (client : Client) :
    (getIndexColumns client = .nullResult ↔
      analyzeGuard client = true ∧
        ∃ e ∈ (client.query none).selects, isDefaultCase e = true ∧
          e.asName ∉ (client.query none).groupbys) ∧
    (getIndexColumns client = .fromNaN ↔ analyzeGuard client = false) := by
  by_cases hg : analyzeGuard client = true
  · cases hal : aggLoop (client.query none).groupbys (client.query none).selects with
    | none =>
      have hnull : getIndexColumns client = .nullResult := by
        simp [getIndexColumns, hg, hal]
      rw [hnull]
      constructor
      · simp only [true_iff]
        refine ⟨hg, ?_⟩
        obtain ⟨e, he, hd, hn⟩ := (aggLoop_none_iff _ _).mp hal
        exact ⟨e, he, (isDefaultCase_iff e).mpr hd, hn⟩
      · constructor
        · intro h; cases h
        · intro h; rw [hg] at h; cases h
    | some v =>
      obtain ⟨a, d, cf⟩ := v
      have hcols : getIndexColumns client =
          .cols ⟨a, d, if cf then [("_count_", "COUNT(*)")] else [],
            (getBaseTable (client.query none)).tableName⟩ := by
        simp [getIndexColumns, hg, hal]
      rw [hcols]
      constructor
      · constructor
        · intro h; cases h
        · rintro ⟨-, e, he, hd, hn⟩
          have hnone := (aggLoop_none_iff _ _).mpr ⟨e, he, (isDefaultCase_iff e).mp hd, hn⟩
          rw [hal] at hnone; cases hnone
      · constructor
        · intro h; cases h
        · intro h; rw [hg] at h; cases h
  · have hgf : analyzeGuard client = false := by simpa using hg
    have hnan : getIndexColumns client = .fromNaN := by simp [getIndexColumns, hg]
    rw [hnan]
    constructor
    · constructor
      · intro h; cases h
      · rintro ⟨h, -⟩; rw [hgf] at h; cases h
    · simp [hgf]

/-- C7 counterexample: a client whose query is a set operation — hence
has no groupby clause — resolves a base table but is rejected with the
`{ from: NaN }` early-exit record, not with `null` as the claim states. -/
theorem C7_counterexample :
    getIndexColumns ⟨fun _ => .setop (.select [] ["t"] [] [] []) [], true⟩ = .fromNaN ∧
    IndexResult.fromNaN ≠ IndexResult.nullResult := by
  exact ⟨by decide, by decide⟩

/-- Witness for C7: on a concrete client selecting one non-grouped,
non-aggregate column, the amended characterization yields `null`. -/
theorem C7_analyzer_failure_witness :
    getIndexColumns ⟨fun _ => .select [⟨"y", none⟩] ["t"] ["k"] [] [], true⟩ = .nullResult :=
  ((C7_analyzer_failure ⟨fun _ => .select [⟨"y", none⟩] ["t"] ["k"] [] [], true⟩).1).mpr
    ⟨by decide, ⟨"y", none⟩, by decide, by decide, by decide⟩

/-- C8 (corrected): a selected column with a present but unrecognized
aggregate name falls into the `default:` case: when its alias is not in
the grouping set the analysis fails with `null`, but when its alias IS in
the grouping set the column is treated as a grouping dimension (its alias
appears in the resulting dims) — the analysis does not fail on its
account, contrary to the claim. -/
theorem C8_unrecognized_aggregate (client : Client) (e : SelectEntry)
    (hmem : e ∈ (client.query none).selects)
    (hagg : e.aggregate.isSome = true)
    (hdflt : isDefaultCase e = true) :
    (e.asName ∉ (client.query none).groupbys → analyzeGuard client = true →
      getIndexColumns client = .nullResult) ∧
    (e.asName ∈ (client.query none).groupbys →
      ∀ c, getIndexColumns client = .cols c → e.asName ∈ c.dims) := by
  constructor
  · intro hn hg
    have hnone := (aggLoop_none_iff (client.query none).groupbys (client.query none).selects).mpr
      ⟨e, hmem, (isDefaultCase_iff e).mp hdflt, hn⟩
    simp [getIndexColumns, hg, hnone]
  · intro hin c hc
    by_cases hg : analyzeGuard client = true
    · cases hal : aggLoop (client.query none).groupbys (client.query none).selects with
      | none => simp [getIndexColumns, hg, hal] at hc
      | some v =>
        obtain ⟨a, d, cf⟩ := v
        have hcols : getIndexColumns client =
            .cols ⟨a, d, if cf then [("_count_", "COUNT(*)")] else [],
              (getBaseTable (client.query none)).tableName⟩ := by
          simp [getIndexColumns, hg, hal]
        rw [hcols] at hc
        injection hc with h
        subst h
        exact aggLoop_dims_mem _ _ _ _ _ hal e hmem ((isDefaultCase_iff e).mp hdflt)
    · have hnan : getIndexColumns client = .fromNaN := by simp [getIndexColumns, hg]
      rw [hnan] at hc; cases hc

/-- C8 counterexample: a column with the unrecognized aggregate `MEDIAN`
whose alias `x` is in the grouping set: the analysis succeeds with `x` as
a grouping dimension, instead of failing with `null` as the claim states. -/
theorem C8_counterexample :
    getIndexColumns clientMedian = .cols ⟨[], ["x"], [], "t"⟩ ∧
    getIndexColumns clientMedian ≠ .nullResult := by
  exact ⟨by decide, by decide⟩

/-- Witness for C8: the amended claim at the concrete `MEDIAN` client. -/
theorem C8_unrecognized_aggregate_witness :
    ("x" ∉ (clientMedian.query none).groupbys → analyzeGuard clientMedian = true →
      getIndexColumns clientMedian = .nullResult) ∧
    ("x" ∈ (clientMedian.query none).groupbys →
      ∀ c, getIndexColumns clientMedian = .cols c → "x" ∈ c.dims) :=
  C8_unrecognized_aggregate clientMedian ⟨"x", some "MEDIAN"⟩ (by decide) (by decide) (by decide)

/-- C4 (confirmed): for an analyzable query whose selected columns are
all recognized aggregates or grouped dimensions, the analysis succeeds;
the aggregate map has exactly one entry per aggregate column, mapped as
the spec describes (COUNT/SUM via SUM, AVG via the weighted SUM/COUNT
quotient, MIN/MAX unchanged, recognized case-insensitively); and the
synthesized `_count_` column is present iff an AVG aggregate is present. -/
theorem C4_aggregate_mapping (client : Client)
    (hguard : analyzeGuard client = true)
    (hall : ∀ e ∈ (client.query none).selects, switchCase e = .dflt →
      e.asName ∈ (client.query none).groupbys) :
    ∃ c, getIndexColumns client = .cols c ∧
      c.aggr = specAggrMap (client.query none).selects ∧
      c.dims = specDims (client.query none).selects ∧
      (c.count = [("_count_", "COUNT(*)")] ↔ (client.query none).selects.any isAvgEntry = true) ∧
      (c.count = [] ↔ (client.query none).selects.any isAvgEntry = false) := by
  have hal := aggLoop_some (client.query none).groupbys (client.query none).selects hall
  refine ⟨⟨specAggrMap (client.query none).selects, specDims (client.query none).selects,
    if (client.query none).selects.any isAvgEntry then [("_count_", "COUNT(*)")] else [],
    (getBaseTable (client.query none)).tableName⟩, ?_, rfl, rfl, ?_, ?_⟩
  · simp [getIndexColumns, hguard, hal]
  · cases hav : (client.query none).selects.any isAvgEntry <;> simp [hav]
  · cases hav : (client.query none).selects.any isAvgEntry <;> simp [hav]

/-- Witness for C4: a concrete client with mixed-case COUNT, SUM, AVG,
MIN, MAX aggregates over one grouped dimension. -/
theorem C4_aggregate_mapping_witness :
    ∃ c, getIndexColumns clientAgg = .cols c ∧
      c.aggr = specAggrMap (clientAgg.query none).selects ∧
      c.dims = specDims (clientAgg.query none).selects ∧
      (c.count = [("_count_", "COUNT(*)")] ↔ (clientAgg.query none).selects.any isAvgEntry = true) ∧
      (c.count = [] ↔ (clientAgg.query none).selects.any isAvgEntry = false) :=
  C4_aggregate_mapping clientAgg (by decide) (by decide)

/-! ### C3, C10: numeric behavior of the binning engine -/

theorem log_le_log_aux (a b : ℝ) (ha : 0 < a) (hab : a ≤ b) :
    Real.log a ≤ Real.log b :=
  Real.strictMonoOn_log.monotoneOn (Set.mem_Ioi.mpr ha)
    (Set.mem_Ioi.mpr (lt_of_lt_of_le ha hab)) hab

theorem symlog_eq (x : ℝ) :
    Real.sign x * Real.log (1 + |x|) =
      if 0 ≤ x then Real.log (1 + x) else -Real.log (1 - x) := by
  rcases lt_trichotomy x 0 with h | h | h
  · rw [Real.sign_of_neg h, abs_of_neg h, if_neg (not_le.mpr h), ← sub_eq_add_neg,
      neg_one_mul]
  · subst h
    simp [Real.sign_zero]
  · rw [Real.sign_of_pos h, abs_of_pos h, if_pos h.le, one_mul]

theorem symlog_mono : Monotone (fun x : ℝ => Real.sign x * Real.log (1 + |x|)) := by
  intro x y hxy
  simp only [symlog_eq]
  rcases le_or_lt 0 x with hx | hx
  · rw [if_pos hx, if_pos (hx.trans hxy)]
    exact log_le_log_aux _ _ (by linarith) (by linarith)
  · rcases le_or_lt 0 y with hy | hy
    · rw [if_neg (not_le.mpr hx), if_pos hy]
      have h1 : 0 ≤ Real.log (1 - x) := Real.log_nonneg (by linarith)
      have h2 : 0 ≤ Real.log (1 + y) := Real.log_nonneg (by linarith)
      linarith
    · rw [if_neg (not_le.mpr hx), if_neg (not_le.mpr hy)]
      have : Real.log (1 - y) ≤ Real.log (1 - x) :=
        log_le_log_aux _ _ (by linarith) (by linarith)
      linarith

theorem liftDomain_min_mem (t : String) (x y : ℝ) (hx : x ∈ liftDomain t)
    (hy : y ∈ liftDomain t) : min x y ∈ liftDomain t := by
  unfold liftDomain at *
  split_ifs at * with h
  · exact lt_min hx hy
  · trivial

theorem liftDomain_max_mem (t : String) (x y : ℝ) (hx : x ∈ liftDomain t)
    (hy : y ∈ liftDomain t) : max x y ∈ liftDomain t := by
  unfold liftDomain at *
  split_ifs at * with h
  · exact lt_max_iff.mpr (Or.inl hx)
  · trivial

theorem scaleLift_monotoneOn (t : String) (f : ℝ → ℝ) (hf : scaleLift t = some f) :
    MonotoneOn f (liftDomain t) := by
  unfold scaleLift at hf
  split_ifs at hf with h1 h2 h3 h4 h5 h6
  · injection hf with hf; subst hf; subst h1
    exact fun a _ b _ hab => hab
  · injection hf with hf; subst hf; subst h2
    exact Real.strictMonoOn_log.monotoneOn
  · injection hf with hf; subst hf; subst h3
    exact symlog_mono.monotoneOn _
  · injection hf with hf; subst hf; subst h4
    exact fun a _ b _ hab => Real.sqrt_le_sqrt hab
  · injection hf with hf; subst hf; subst h5
    exact fun a _ b _ hab => hab
  · injection hf with hf; subst hf; subst h6
    exact fun a _ b _ hab => hab

/-- C3 (confirmed): for every supported scale kind, with a non-degenerate
lifted domain, the produced binning expression evaluates any numeric
input `v` to `floor(a * (f(v) - lo))` with `lo = f(min(d0,d1))`,
`hi = f(max(d0,d1))` and `a = |f(r1) - f(r0)| / (hi - lo)`; consequently
the bin value is monotonic in the input (over the transform's domain) and
the domain minimum falls in bin 0. -/
theorem C3_binning (t : String) (f : ℝ → ℝ) (hf : scaleLift t = some f)
    (d0 d1 r0 r1 : ℝ) (hd0 : d0 ∈ liftDomain t) (hd1 : d1 ∈ liftDomain t)
    (hne : f (min d0 d1) ≠ f (max d0 d1)) :
    ∃ b, binInterval ⟨t, (d0, d1), (r0, r1)⟩ = some b ∧
      (∀ v, b.eval v = .fin ((⌊|f r1 - f r0| / (f (max d0 d1) - f (min d0 d1)) *
        (f v - f (min d0 d1))⌋ : ℤ) : ℝ)) ∧
      (∀ v w, v ∈ liftDomain t → w ∈ liftDomain t → v ≤ w →
        (⌊|f r1 - f r0| / (f (max d0 d1) - f (min d0 d1)) * (f v - f (min d0 d1))⌋ : ℤ) ≤
          ⌊|f r1 - f r0| / (f (max d0 d1) - f (min d0 d1)) * (f w - f (min d0 d1))⌋) ∧
      b.eval (min d0 d1) = .fin 0 := by
  have hmono := scaleLift_monotoneOn t f hf
  have hminm : min d0 d1 ∈ liftDomain t := liftDomain_min_mem t d0 d1 hd0 hd1
  have hmaxm : max d0 d1 ∈ liftDomain t := liftDomain_max_mem t d0 d1 hd0 hd1
  have hle : f (min d0 d1) ≤ f (max d0 d1) := hmono hminm hmaxm min_le_max
  have hlt : f (min d0 d1) < f (max d0 d1) := lt_of_le_of_ne hle hne
  have hsub : f (max d0 d1) - f (min d0 d1) ≠ 0 := sub_ne_zero.mpr (ne_of_gt hlt)
  have hbin : binInterval ⟨t, (d0, d1), (r0, r1)⟩ =
      some (binFunction (d0, d1) (r0, r1) f) := by
    simp [binInterval, hf]
  have heval : ∀ v, (binFunction (d0, d1) (r0, r1) f).eval v =
      .fin ((⌊|f r1 - f r0| / (f (max d0 d1) - f (min d0 d1)) *
        (f v - f (min d0 d1))⌋ : ℤ) : ℝ) := by
    intro v
    show jsFloor (jsMul (jsDiv |f r1 - f r0| (f (max d0 d1) - f (min d0 d1)))
      (f v - f (min d0 d1))) = _
    unfold jsDiv
    rw [if_pos hsub]
    rfl
  have hA0 : 0 ≤ |f r1 - f r0| / (f (max d0 d1) - f (min d0 d1)) :=
    div_nonneg (abs_nonneg _) (le_of_lt (sub_pos.mpr hlt))
  refine ⟨binFunction (d0, d1) (r0, r1) f, hbin, heval, ?_, ?_⟩
  · intro v w hv hw hvw
    have hfvw : f v ≤ f w := hmono hv hw hvw
    exact Int.floor_mono (mul_le_mul_of_nonneg_left (by linarith) hA0)
  · rw [heval]
    simp

/-- Witness for C3: a linear scale with domain `[0,1]` and range `[0,1]`;
the domain minimum falls in bin 0. -/
theorem C3_binning_witness :
    scaleLift "linear" = some (fun x : ℝ => x) ∧
    ∃ b, binInterval ⟨"linear", ((0:ℝ), 1), ((0:ℝ), 1)⟩ = some b ∧
      b.eval (min (0:ℝ) 1) = .fin 0 := by
  have hf : scaleLift "linear" = some (fun x : ℝ => x) := rfl
  refine ⟨hf, ?_⟩
  obtain ⟨b, hb, -, -, h0⟩ := C3_binning "linear" (fun x => x) hf 0 1 0 1
    (Set.mem_univ 0) (Set.mem_univ 1) (by norm_num [min_def, max_def])
  exact ⟨b, hb, h0⟩

theorem jsFloor_jsMul_nonfinite (a : JSNum) (r : ℝ) (h : a.isFinite = false) :
    (jsFloor (jsMul a r)).isFinite = false := by
  cases a with
  | fin x => simp [JSNum.isFinite] at h
  | posInf =>
    show (jsFloor (if 0 < r then JSNum.posInf else if r < 0 then JSNum.negInf
      else JSNum.nan)).isFinite = false
    split_ifs <;> rfl
  | negInf =>
    show (jsFloor (if 0 < r then JSNum.negInf else if r < 0 then JSNum.posInf
      else JSNum.nan)).isFinite = false
    split_ifs <;> rfl
  | nan => rfl

/-- C10 (confirmed): for any supported scale whose lifted domain
endpoints coincide (`hi - lo = 0`, e.g. a degenerate domain `[d,d]`),
`binFunction` divides by zero unguarded: resolution does not fail (the
bin function is still produced), the scale factor `a` embedded in every
generated expression is non-finite (`Infinity` or `NaN`), and every
generated bin expression evaluates to a non-finite value. -/
theorem C10_degenerate_domain (t : String) (f : ℝ → ℝ) (hf : scaleLift t = some f)
    (d0 d1 r0 r1 : ℝ) (hdeg : f (min d0 d1) = f (max d0 d1)) :
    ∃ b, binInterval ⟨t, (d0, d1), (r0, r1)⟩ = some b ∧
      b.a.isFinite = false ∧ ∀ v, (b.eval v).isFinite = false := by
  have hz : f (max d0 d1) - f (min d0 d1) = 0 := sub_eq_zero.mpr hdeg.symm
  have ha : (binFunction (d0, d1) (r0, r1) f).a.isFinite = false := by
    show (jsDiv |f r1 - f r0| (f (max d0 d1) - f (min d0 d1))).isFinite = false
    rw [hz]
    unfold jsDiv
    rw [if_neg (by simp)]
    by_cases hx : 0 < |f r1 - f r0|
    · rw [if_pos hx]; rfl
    · rw [if_neg hx, if_neg (not_lt.mpr (abs_nonneg _))]; rfl
  refine ⟨binFunction (d0, d1) (r0, r1) f, by simp [binInterval, hf], ha, ?_⟩
  intro v
  exact jsFloor_jsMul_nonfinite _ _ ha

/-- Witness for C10: a linear scale with the degenerate domain `[5,5]`. -/
theorem C10_degenerate_domain_witness :
    ∃ b, binInterval ⟨"linear", ((5:ℝ), 5), ((0:ℝ), 1)⟩ = some b ∧
      b.a.isFinite = false ∧ ∀ v, (b.eval v).isFinite = false :=
  C10_degenerate_domain "linear" (fun x => x) rfl 5 5 0 1 (by simp)

/-! ### C9: unguarded dereferences in the update path -/

/-- C9 (confirmed): when no active view has been successfully resolved
(`activeView` is `null` — after construction, after a client-set change,
or after a failed resolution), `update()` throws a `TypeError` (it
dereferences `activeView.predicate` unguarded), and
`updateClient(client, undefined)` throws a `TypeError` whenever the index
map is still `null` (`this.indices.get` on `null`; the state after
construction or a client-set change) and whenever the client has a
recorded entry (the filter derivation dereferences `activeView`
unguarded) — not a silent no-op. -/
theorem C9_update_type_error (st : IndexerState) (sel : Selection) (c : Nat)
    (hav : st.activeView = none) :
    update st sel = .error .typeError ∧
    (st.indices = none → updateClient st sel c none = .error .typeError) ∧
    (∀ m e, st.indices = some m → m.lookup c = some e →
      updateClient st sel c none = .error .typeError) := by
  refine ⟨?_, ?_, ?_⟩
  · simp [update, hav]
  · intro hi
    simp [updateClient, hi]
  · intro m e hi he
    simp [updateClient, hi, he, hav]

/-- Witness for C9: the freshly constructed indexer state. -/
theorem C9_update_type_error_witness :
    update resetState ⟨⟨none, none, none⟩, false, fun _ _ => none⟩ = .error .typeError ∧
    updateClient resetState ⟨⟨none, none, none⟩, false, fun _ _ => none⟩ 0 none =
      .error .typeError := by
  obtain ⟨h1, h2, -⟩ :=
    C9_update_type_error resetState ⟨⟨none, none, none⟩, false, fun _ _ => none⟩ 0 rfl
  exact ⟨h1, h2 rfl⟩

/-! ### C5: idempotence on an unchanged source -/

/-- C5 (confirmed): a second `index()` call with the same client-set
identity and a clause whose source equals the previously resolved active
view's source returns `true` immediately: the state is returned unchanged
(no re-analysis of the clients, no active-view re-resolution) and no
executor or console effect — in particular no table-creation submission —
is produced. -/
theorem C5_idempotent (env : Nat → Client) (skipC : Nat → Clause → Bool)
    (execOk : String → Bool) (sel : Selection) (st : IndexerState)
    (csId : Nat) (cs : List Nat) (clause : Clause) (s : Nat) (av : ActiveView)
    (hcl : st.clients.map Prod.fst = some csId)
    (hen : st.enabled = true)
    (hav : st.activeView = some av)
    (hsrc : av.source = some s)
    (hclause : clause.source = some s) :
    index env skipC execOk sel st csId cs (some clause) = (st, true, []) := by
  simp [index, hcl, hen, hav, hsrc, hclause]

/-- Witness for C5: a concrete resolved state re-indexed with a clause of
the same source. -/
theorem C5_idempotent_witness :
    index (fun _ => clientAgg) (fun _ _ => false) (fun _ => true)
      ⟨clauseSrc3, false, fun _ _ => none⟩
      ⟨true, some (7, [0]), some [], some avPoint⟩ 7 [0] (some clauseSrc3) =
      (⟨true, some (7, [0]), some [], some avPoint⟩, true, []) :=
  C5_idempotent _ _ _ _ _ _ _ _ 3 avPoint rfl rfl rfl rfl rfl

/-! ### C6: unsupported scale kinds fail closed -/

theorem scaleLift_isSome_eq (t : String) :
    (scaleLift t).isSome = scaleSupported t := by
  unfold scaleLift scaleSupported
  split_ifs <;> simp_all

theorem allSome_eq_none {α : Type} (l : List (Option α)) (h : none ∈ l) :
    allSome l = none := by
  induction l with
  | nil => cases h
  | cons x rest ih =>
    cases x with
    | none => rfl
    | some a =>
      rcases List.mem_cons.mp h with h' | h'
      · exact Option.noConfusion h'
      · simp [allSome, ih h']

theorem getActiveView_unsupported (t : String) (hunsup : scaleSupported t = false)
    (clause : Clause) (scs : List QScale) (pr : ClausePred)
    (hsch : clause.schema = some ⟨"interval", some scs⟩)
    (hpr : clause.predicate = some pr)
    (hex : ∃ sc ∈ scs, sc.stype = t) : getActiveView clause = none := by
  obtain ⟨sc, hmem, hst⟩ := hex
  have hbin : binIntervalSym sc = none := by
    unfold binIntervalSym
    rw [hst, hunsup]
    simp
  have hnone : allSome (scs.map binIntervalSym) = none :=
    allSome_eq_none _ (by
      rw [← hbin]
      exact List.mem_map_of_mem binIntervalSym hmem)
  simp [getActiveView, hsch, hpr, hnone]

/-- C6 (confirmed): an unsupported scale kind makes the binning engine
yield `null` (both the numeric `binInterval` and its structural image);
an interval clause containing such a scale makes active-view resolution
fail; and an `index()` call that reaches resolution with such a clause
stores a null active view and returns `false` with no executor or console
effect — in particular no table creation (fail closed, no partial
indexing). -/
theorem C6_fail_closed (t : String) (hunsup : scaleSupported t = false) :
    (∀ d r : ℝ × ℝ, binInterval ⟨t, d, r⟩ = none) ∧
    (∀ sc : QScale, sc.stype = t → binIntervalSym sc = none) ∧
    (∀ (clause : Clause) (scs : List QScale) (pr : ClausePred),
      clause.schema = some ⟨"interval", some scs⟩ → clause.predicate = some pr →
      (∃ sc ∈ scs, sc.stype = t) → getActiveView clause = none) ∧
    (∀ (env : Nat → Client) (skipC : Nat → Clause → Bool) (execOk : String → Bool)
      (sel : Selection) (st : IndexerState) (csId : Nat) (cs : List Nat)
      (clause : Clause) (s : Nat) (scs : List QScale) (pr : ClausePred),
      st.clients.map Prod.fst = some csId → st.enabled = true →
      clause.source = some s →
      st.activeView.elim false (fun av => av.source = some s) = false →
      clause.schema = some ⟨"interval", some scs⟩ → clause.predicate = some pr →
      (∃ sc ∈ scs, sc.stype = t) →
      index env skipC execOk sel st csId cs (some clause) =
        ({ st with activeView := none }, false, [])) := by
  refine ⟨?_, ?_, ?_, ?_⟩
  · intro d r
    have : (scaleLift t).isSome = false := by rw [scaleLift_isSome_eq, hunsup]
    unfold binInterval
    cases hsl : scaleLift t with
    | none => rfl
    | some f => rw [hsl] at this; simp at this
  · intro sc hst
    unfold binIntervalSym
    rw [hst, hunsup]
    simp
  · intro clause scs pr hsch hpr hex
    exact getActiveView_unsupported t hunsup clause scs pr hsch hpr hex
  · intro env skipC execOk sel st csId cs clause s scs pr hcl hen hs hnosame hsch hpr hex
    have hga : getActiveView clause = none :=
      getActiveView_unsupported t hunsup clause scs pr hsch hpr hex
    simp [index, hcl, hen, hs, hnosame, hga]

/-- Witness for C6: the unsupported scale kind `pow`: `binInterval` and
its structural image yield `null`, the active view fails to resolve, and
`index()` returns `false` with no effects. -/
theorem C6_fail_closed_witness :
    binInterval ⟨"pow", ((0:ℝ), 1), ((0:ℝ), 1)⟩ = none ∧
    binIntervalSym scalePow = none ∧
    getActiveView clausePow = none ∧
    index (fun _ => clientAgg) (fun _ _ => false) (fun _ => true)
      ⟨clausePow, false, fun _ _ => none⟩
      ⟨true, some (7, [0]), none, none⟩ 7 [0] (some clausePow) =
      (⟨true, some (7, [0]), none, none⟩, false, []) := by
  obtain ⟨h1, h2, h3, h4⟩ := C6_fail_closed "pow" rfl
  exact ⟨h1 _ _, h2 scalePow rfl, h3 clausePow [scalePow] _ rfl rfl ⟨scalePow, by decide, rfl⟩,
    h4 _ _ _ _ _ 7 [0] clausePow 3 [scalePow] _ rfl rfl rfl rfl rfl rfl
      ⟨scalePow, by decide, rfl⟩⟩

/-! ### C1: table-creation failure, entry recording, and update behavior -/

theorem buildLoop_lookup_isSome (env : Nat → Client) (skipC : Nat → Clause → Bool)
    (execOk : String → Bool) (sel : Selection) (s : Nat) (active : Clause)
    (av : ActiveView) (cs : List Nat) (c : Nat)
    (hcross : sel.cross = false) (hmem : c ∈ cs) :
    ((buildLoop env skipC execOk sel s active av cs).1.lookup c).isSome = true := by
  induction cs with
  | nil => cases hmem
  | cons c' rest ih =>
    simp only [buildLoop, hcross, Bool.false_and, if_false]
    by_cases hc : c = c'
    · subst hc
      simp [List.lookup]
    · rcases List.mem_cons.mp hmem with h | h
      · exact absurd h hc
      · have hb : (c == c') = false := beq_eq_false_iff_ne.mpr hc
        simp only [List.lookup, hb]
        exact ih h

theorem buildLoop_error_logged (env : Nat → Client) (skipC : Nat → Clause → Bool)
    (execOk : String → Bool) (sel : Selection) (s : Nat) (active : Clause)
    (av : ActiveView) (cs : List Nat)
    (hcross : sel.cross = false) (hne : cs ≠ [])
    (hfail : ∀ str, execOk str = false) :
    Effect.errorLogged ∈ (buildLoop env skipC execOk sel s active av cs).2 := by
  cases cs with
  | nil => exact absurd rfl hne
  | cons c' rest =>
    simp only [buildLoop, hcross, Bool.false_and, if_false]
    simp [createIndex, hfail]

/-- C1 (corrected): on the index-construction path the client's index
entry is recorded unconditionally BEFORE the asynchronous table creation
runs: a failing creation statement is logged (`console.error`) and
swallowed, but the entry remains in the index map all the same, and a
subsequent `updateClient` for that client issues a re-aggregation query
against the (never-created) table rather than being a silent no-op. -/
theorem C1_error_swallowed_entry_recorded
    (env : Nat → Client) (skipC : Nat → Clause → Bool) (execOk : String → Bool)
    (sel : Selection) (st : IndexerState) (csId : Nat) (cs : List Nat)
    (clause : Clause) (s : Nat) (c : Nat)
    (hcl : st.clients.map Prod.fst = some csId)
    (hen : st.enabled = true)
    (hsrc : clause.source = some s)
    (hnosame : st.activeView.elim false (fun av => av.source = some s) = false)
    (hres : (getActiveView clause).isSome = true)
    (hcross : sel.cross = false)
    (hmem : c ∈ cs) :
    (index env skipC execOk sel st csId cs (some clause)).2.1 = true ∧
    (((index env skipC execOk sel st csId cs (some clause)).1.indices.getD
      []).lookup c).isSome = true ∧
    (∃ q, updateClient (index env skipC execOk sel st csId cs (some clause)).1
      sel c none = .ok (some q)) ∧
    ((∀ str, execOk str = false) →
      Effect.errorLogged ∈ (index env skipC execOk sel st csId cs (some clause)).2.2) := by
  obtain ⟨av, hav⟩ := Option.isSome_iff_exists.mp hres
  have hidx : index env skipC execOk sel st csId cs (some clause) =
      (⟨st.enabled, st.clients, some (buildLoop env skipC execOk sel s clause av cs).1,
        some av⟩, true,
        Effect.warn :: (buildLoop env skipC execOk sel s clause av cs).2) := by
    simp [index, hcl, hen, hsrc, hnosame, hav]
  have hlk := buildLoop_lookup_isSome env skipC execOk sel s clause av cs c hcross hmem
  obtain ⟨e, he⟩ := Option.isSome_iff_exists.mp hlk
  refine ⟨by rw [hidx], ?_, ?_, ?_⟩
  · rw [hidx]
    exact hlk
  · rw [hidx]
    exact ⟨⟨e.dims, e.aggr, e.table, av.predicate sel.active.predicate⟩,
      by simp [updateClient, he]⟩
  · intro hfail
    rw [hidx]
    exact List.mem_cons_of_mem _
      (buildLoop_error_logged env skipC execOk sel s clause av cs hcross
        (List.ne_nil_of_mem hmem) hfail)

/-- C1 counterexample: with an executor on which every statement fails,
a full `index()` run logs the creation error, yet the client's index
entry IS recorded in the index map, and the subsequent
`updateClient(client, undefined)` is not a silent no-op — it issues a
query (against the never-created table). -/
theorem C1_counterexample :
    Effect.errorLogged ∈ runC1.2.2 ∧
    ((runC1.1.indices.getD []).lookup 0).isSome = true ∧
    issuesQuery (updateClient runC1.1 selLin 0 none) = true := by
  exact ⟨by decide, by decide, by decide⟩

/-- Witness for C1: the amended claim at a concrete enabled state with a
failing executor. -/
theorem C1_error_swallowed_entry_recorded_witness :
    (index (fun _ => clientAgg) (fun _ _ => false) (fun _ => false) selLin
      ⟨true, some (7, [0]), none, none⟩ 7 [0] (some clauseLin)).2.1 = true ∧
    (((index (fun _ => clientAgg) (fun _ _ => false) (fun _ => false) selLin
      ⟨true, some (7, [0]), none, none⟩ 7 [0] (some clauseLin)).1.indices.getD
      []).lookup 0).isSome = true ∧
    (∃ q, updateClient (index (fun _ => clientAgg) (fun _ _ => false) (fun _ => false)
      selLin ⟨true, some (7, [0]), none, none⟩ 7 [0] (some clauseLin)).1
      selLin 0 none = .ok (some q)) ∧
    ((∀ str, (fun _ => false : String → Bool) str = false) →
      Effect.errorLogged ∈ (index (fun _ => clientAgg) (fun _ _ => false)
        (fun _ => false) selLin ⟨true, some (7, [0]), none, none⟩ 7 [0]
        (some clauseLin)).2.2) :=
  C1_error_swallowed_entry_recorded (fun _ => clientAgg) (fun _ _ => false)
    (fun _ => false) selLin ⟨true, some (7, [0]), none, none⟩ 7 [0] clauseLin 3 0
    rfl rfl rfl rfl (by decide) rfl (by decide)
